import Mathlib

/-!
Verification of the libpq OAuth Device Authorization flow engine
(`src/interfaces/libpq/fe-auth-oauth-curl.c`).

The development shallowly embeds the pieces of the C source that the
properties below are about:

* the schema-driven JSON response validator (`parse_oauth_json` and the
  `oauth_json_*` semantic-action callbacks), modelled as an interpreter over
  the event stream that `pg_parse_json` would produce for a JSON document;
* the numeric `interval` handling (`parse_interval`, `parse_device_authz`);
* the token-endpoint response handling (`finish_token_request`,
  `record_token_error`, `handle_token_response`) including the `slow_down`
  back-off arithmetic on a wrapping 32-bit signed interval;
* issuer validation (`check_issuer`);
* the media-type check (`check_content_type` with `pg_strncasecmp`);
* the `application/x-www-form-urlencoded` encoder (`curl_easy_escape`
  followed by the `%20` → `+` rewrite of `append_urlencoded`/`urlencode`);
* the poll-driven flow state machine of `pg_fe_run_oauth_flow_impl`.

C strings are modelled as Lean `String`s (the C code never stores interior
NUL bytes in them); raw HTTP bytes are modelled as `List Nat` with each
element below 256.  Machine `int` values are modelled as `Int` with explicit
wrapping where the C arithmetic can overflow.
-/

/-! ## JSON documents and the event stream produced by `pg_parse_json` -/

/-- Token types of the C `JsonTokenType` enum that matter to the validator:
strings, numbers, the two booleans, null, and array-start (used in
`json_field.type` to declare an array-of-strings field). -/
inductive JTok where
  | tstring
  | tnumber
  | ttrue
  | tfalse
  | tnull
  | tarray
deriving DecidableEq, Repr

/-- A JSON value.  Numbers keep their lexical text, as the C validator stores
the raw token text for later decimal parsing. -/
inductive Json where
  | jstr (s : String)
  | jnum (s : String)
  | jbool (b : Bool)
  | jnull
  | jarr (es : List Json)
  | jobj (ms : List (String × Json))

/-- One semantic-action event fired by `pg_parse_json` while walking a
document: object start/end, the start of an object member, array start/end,
and scalar tokens. -/
inductive JEvent where
  | objStart
  | objEnd
  | fieldEv (name : String)
  | arrStart
  | arrEnd
  | scalar (token : String) (ttype : JTok)
deriving DecidableEq, Repr

mutual

/-- The event stream `pg_parse_json` fires for a value, in document order. -/
def jsonEvents : Json → List JEvent
  | .jstr s => [.scalar s .tstring]
  | .jnum s => [.scalar s .tnumber]
  | .jbool b => [.scalar (if b then "true" else "false") (if b then .ttrue else .tfalse)]
  | .jnull => [.scalar "null" .tnull]
  | .jarr es => .arrStart :: (jsonListEvents es ++ [.arrEnd])
  | .jobj ms => .objStart :: (jsonMembersEvents ms ++ [.objEnd])

/-- Events of the elements of an array, in order. -/
def jsonListEvents : List Json → List JEvent
  | [] => []
  | e :: es => jsonEvents e ++ jsonListEvents es

/-- Events of the members of an object: each member fires
`object_field_start` followed by the events of its value. -/
def jsonMembersEvents : List (String × Json) → List JEvent
  | [] => []
  | (k, v) :: ms => .fieldEv k :: (jsonEvents v ++ jsonMembersEvents ms)

end

/-! ## The validator state and the `oauth_json_*` callbacks -/

/-- One entry of the `struct json_field` schema array: key name, expected
token type, destination slot, and REQUIRED/OPTIONAL marker.  The C target is
a pointer into the destination struct; two schema entries may share one
destination (`verification_uri`/`verification_url`), which we model by
giving both the same `target` slot number. -/
structure JField where
  name : String
  jtype : JTok
  target : Nat
  required : Bool
deriving DecidableEq, Repr

/-- The C `struct oauth_parse` state: nesting level, the active field (a
pointer into the schema array), plus the destination slots.  `scalars` is the
log of all scalar-slot writes, newest first (a slot is populated iff it has
an entry, mirroring a non-NULL `char *`); `arrays` maps a slot to the strings
appended so far (a slot is populated iff present, mirroring a non-NULL
`curl_slist *`, which only becomes non-NULL on the first append). -/
structure PState where
  nested : Nat
  active : Option JField
  scalars : List (Nat × String)
  arrays : List (Nat × List String)
deriving DecidableEq, Repr

/-- Look a slot up in a write log (first, i.e. most recent, entry wins). -/
def slotLookup {α : Type} : List (Nat × α) → Nat → Option α
  | [], _ => none
  | (k, v) :: rest, t => if k = t then some v else slotLookup rest t

/-- Append one string to an array slot, creating the slot on first append
(`curl_slist_append` on a NULL list). -/
def arrayAppend : List (Nat × List String) → Nat → String → List (Nat × List String)
  | [], t, v => [(t, [v])]
  | (k, l) :: rest, t, v =>
    if k = t then (k, l ++ [v]) :: rest else (k, l) :: arrayAppend rest t v

/-- The message of `report_type_mismatch` for the active field. -/
def typeMismatchMsg (f : JField) : String :=
  match f.jtype with
  | .tstring => "field \"" ++ f.name ++ "\" must be a string"
  | .tnumber => "field \"" ++ f.name ++ "\" must be a number"
  | .tarray => "field \"" ++ f.name ++ "\" must be an array of strings"
  | _ => "field \"" ++ f.name ++ "\" has unexpected type"

/-- The scan of `oauth_json_object_field_start` over the schema array:
first entry with a matching name, if any. -/
def findField : List JField → String → Option JField
  | [], _ => none
  | f :: rest, n => if f.name = n then some f else findField rest n

/-- Whether the destination slot of a field is already populated, exactly as
tested by the duplicate check in `oauth_json_object_field_start`. -/
def fieldPopulated (st : PState) (f : JField) : Bool :=
  match f.jtype with
  | .tarray => (slotLookup st.arrays f.target).isSome
  | _ => (slotLookup st.scalars f.target).isSome

/-- Callback `oauth_json_object_start`: an object is rejected outright
whenever some declared field is active (none of the declared fields can be
or contain objects); otherwise the nesting level rises. -/
def oauthObjectStart (st : PState) : Except String PState :=
  match st.active with
  | some f => .error (typeMismatchMsg f)
  | none => .ok { st with nested := st.nested + 1 }

/-- Callback `oauth_json_object_field_start`: only top-level members
(nesting level 1) are considered; a member whose name matches a declared
field becomes active, and is rejected as duplicated if its destination slot
is already populated. -/
def oauthFieldStart (fields : List JField) (st : PState) (name : String) :
    Except String PState :=
  if st.nested = 1 then
    match findField fields name with
    | none => .ok st
    | some f =>
      if fieldPopulated st f then
        .error ("field \"" ++ f.name ++ "\" is duplicated")
      else .ok { st with active := some f }
  else .ok st

/-- Callback `oauth_json_object_end`: the nesting level drops. -/
def oauthObjectEnd (st : PState) : PState :=
  { st with nested := st.nested - 1 }

/-- Callback `oauth_json_array_start`: a top-level array is rejected; an
array while a field is active is rejected unless the field is declared as an
array and we are at the top level (declared arrays must not nest). -/
def oauthArrayStart (st : PState) : Except String PState :=
  if st.nested = 0 then .error "top-level element must be an object"
  else
    match st.active with
    | some f =>
      if f.jtype ≠ JTok.tarray ∨ 1 < st.nested then .error (typeMismatchMsg f)
      else .ok { st with nested := st.nested + 1 }
    | none => .ok { st with nested := st.nested + 1 }

/-- Callback `oauth_json_array_end`: an active (necessarily array) field is
fully processed; the nesting level drops. -/
def oauthArrayEnd (st : PState) : PState :=
  match st.active with
  | some _ => { st with active := none, nested := st.nested - 1 }
  | none => { st with nested := st.nested - 1 }

/-- Callback `oauth_json_scalar`: top-level scalars are rejected; a scalar
with no active field is ignored; otherwise the token type must match the
declaration (string elements for declared arrays, which must actually be
inside an array) and the token is written to the destination slot. -/
def oauthScalar (st : PState) (token : String) (ttype : JTok) :
    Except String PState :=
  if st.nested = 0 then .error "top-level element must be an object"
  else
    match st.active with
    | none => .ok st
    | some f =>
      if f.jtype = JTok.tarray then
        if st.nested < 2 then .error (typeMismatchMsg f)
        else if ttype ≠ JTok.tstring then .error (typeMismatchMsg f)
        else .ok { st with arrays := arrayAppend st.arrays f.target token }
      else if ttype ≠ f.jtype then .error (typeMismatchMsg f)
      else .ok { st with scalars := (f.target, token) :: st.scalars, active := none }

/-- Dispatch one semantic-action event to the matching callback. -/
def stepEvent (fields : List JField) (st : PState) : JEvent → Except String PState
  | .objStart => oauthObjectStart st
  | .objEnd => .ok (oauthObjectEnd st)
  | .fieldEv n => oauthFieldStart fields st n
  | .arrStart => oauthArrayStart st
  | .arrEnd => .ok (oauthArrayEnd st)
  | .scalar s t => oauthScalar st s t

/-- Run the callbacks over an event list, stopping at the first failure
(`JSON_SEM_ACTION_FAILED` aborts `pg_parse_json`). -/
def runEvents (fields : List JField) (st : PState) : List JEvent → Except String PState
  | [] => .ok st
  | e :: es =>
    match stepEvent fields st e with
    | .error msg => .error msg
    | .ok st2 => runEvents fields st2 es

/-- The initial zero state of `struct oauth_parse`. -/
def initPState : PState := { nested := 0, active := none, scalars := [], arrays := [] }

/-- The required-fields pass at the end of `parse_oauth_json`: every field
marked REQUIRED must have a populated destination (the C code tests the
union pointer through both of its views). -/
def requiredCheck (st : PState) : List JField → Except String PState
  | [] => .ok st
  | f :: rest =>
    if f.required ∧ (slotLookup st.scalars f.target).isNone
        ∧ (slotLookup st.arrays f.target).isNone then
      .error ("field \"" ++ f.name ++ "\" is missing")
    else requiredCheck st rest

/-- The semantic portion of `parse_oauth_json`: walk the document with the
`oauth_json_*` callbacks and then check required fields.  (The earlier
content-type, embedded-NUL and UTF-8 checks of the C function act on the raw
HTTP body and are modelled separately by `check_content_type`.) -/
def parse_oauth_json (fields : List JField) (j : Json) : Except String PState :=
  match runEvents fields initPState (jsonEvents j) with
  | .error msg => .error msg
  | .ok st => requiredCheck st fields

/-- Whether a parse succeeded. -/
def exceptOk {ε α : Type} : Except ε α → Bool
  | .ok _ => true
  | .error _ => false

/-! ## The four field schemas -/

/-- Slot numbers name the destination pointers of each parsed struct. -/
def providerFields : List JField :=
  [ { name := "issuer", jtype := .tstring, target := 0, required := true },
    { name := "token_endpoint", jtype := .tstring, target := 1, required := true },
    { name := "device_authorization_endpoint", jtype := .tstring, target := 2, required := false },
    { name := "grant_types_supported", jtype := .tarray, target := 3, required := false } ]

/-- Device Authorization Response schema (`parse_device_authz`); note that
`verification_uri` and `verification_url` share destination slot 2, exactly
as the two C entries share `&authz->verification_uri`. -/
def deviceAuthzFields : List JField :=
  [ { name := "device_code", jtype := .tstring, target := 0, required := true },
    { name := "user_code", jtype := .tstring, target := 1, required := true },
    { name := "verification_uri", jtype := .tstring, target := 2, required := true },
    { name := "verification_url", jtype := .tstring, target := 2, required := true },
    { name := "interval", jtype := .tnumber, target := 3, required := false } ]

/-- Access-token success schema (`parse_access_token`). -/
def tokenFields : List JField :=
  [ { name := "access_token", jtype := .tstring, target := 0, required := true },
    { name := "token_type", jtype := .tstring, target := 1, required := true } ]

/-- RFC 6749 error-object schema (`parse_token_error`). -/
def tokenErrorFields : List JField :=
  [ { name := "error", jtype := .tstring, target := 0, required := true },
    { name := "error_description", jtype := .tstring, target := 1, required := false } ]

/-! ## Interval parsing (`parse_interval`, `parse_device_authz`) -/

/-- C `INT_MAX`. -/
def intMax : Int := 2147483647

/-- C `INT_MIN`. -/
def intMin : Int := -2147483648

/-- Value of a list of decimal digit characters. -/
def digitsVal (l : List Char) : Nat :=
  l.foldl (fun a c => a * 10 + (c.toNat - 48)) 0

/-- Exact numeric value of a JSON number lexeme
(`-?digits(.digits)?([eE][+-]?digits)?`).  This models the `sscanf(%lf)`
conversion in `parse_interval`; the C code goes through a `double`, whose
rounding we abstract away by keeping the exact decimal value. -/
def jsonNumValue (s : String) : ℚ :=
  let cs := s.data
  let (sign, cs) : ℚ × List Char :=
    match cs with
    | '-' :: rest => (-1, rest)
    | _ => (1, cs)
  let (mant, cs) := (cs.takeWhile (fun c => c ≠ '.' ∧ c ≠ 'e' ∧ c ≠ 'E'),
                     cs.dropWhile (fun c => c ≠ '.' ∧ c ≠ 'e' ∧ c ≠ 'E'))
  let (frac, cs) : List Char × List Char :=
    match cs with
    | '.' :: rest => (rest.takeWhile (fun c => c ≠ 'e' ∧ c ≠ 'E'),
                      rest.dropWhile (fun c => c ≠ 'e' ∧ c ≠ 'E'))
    | _ => ([], cs)
  let exp : Int :=
    match cs with
    | 'e' :: '-' :: rest => -(digitsVal rest : Int)
    | 'E' :: '-' :: rest => -(digitsVal rest : Int)
    | 'e' :: '+' :: rest => (digitsVal rest : Int)
    | 'E' :: '+' :: rest => (digitsVal rest : Int)
    | 'e' :: rest => (digitsVal rest : Int)
    | 'E' :: rest => (digitsVal rest : Int)
    | _ => 0
  sign * ((digitsVal mant : ℚ) + (digitsVal frac : ℚ) / (10 : ℚ) ^ frac.length)
    * (10 : ℚ) ^ exp

/-- `parse_interval`: take the ceiling of the parsed value, clamp the result
below at 1 (at 0 when `PGOAUTHDEBUG` debugging is enabled) and above at
`INT_MAX`. -/
def parse_interval (debugging : Bool) (q : ℚ) : Int :=
  let parsed : Int := ⌈q⌉
  if parsed < 1 then (if debugging then 0 else 1)
  else if intMax ≤ parsed then intMax
  else parsed

/-- The parsed `struct device_authz`. -/
structure DeviceAuthz where
  device_code : Option String
  user_code : Option String
  verification_uri : Option String
  interval_str : Option String
  interval : Int
deriving DecidableEq, Repr

/-- `parse_device_authz`: run the validator with `deviceAuthzFields`, then
derive `interval` from the raw `interval` string, defaulting to the RFC 8628
value of 5 seconds when the field was absent. -/
def parse_device_authz (debugging : Bool) (j : Json) : Except String DeviceAuthz :=
  match parse_oauth_json deviceAuthzFields j with
  | .error msg => .error msg
  | .ok st =>
    let interval_str := slotLookup st.scalars 3
    .ok { device_code := slotLookup st.scalars 0
          user_code := slotLookup st.scalars 1
          verification_uri := slotLookup st.scalars 2
          interval_str := interval_str
          interval :=
            match interval_str with
            | some s => parse_interval debugging (jsonNumValue s)
            | none => 5 }

/-! ## Token responses (`parse_token_error`, `record_token_error`,
`finish_token_request`, `handle_token_response`) -/

/-- The parsed `struct token_error`. -/
structure TokenErr where
  error : Option String
  error_description : Option String
deriving DecidableEq, Repr

/-- `parse_token_error`: run the validator with `tokenErrorFields`. -/
def parse_token_error (j : Json) : Except String TokenErr :=
  match parse_oauth_json tokenErrorFields j with
  | .error msg => .error msg
  | .ok st => .ok { error := slotLookup st.scalars 0
                    error_description := slotLookup st.scalars 1 }

/-- `record_token_error`: the assembled in-band error message.  Without a
description, a 401 status gets a hint distinguishing a rejected secret from
a missing one (based on `used_basic_auth`); the error code always follows in
parentheses. -/
def record_token_error (used_basic_auth : Bool) (status : Nat) (err : TokenErr) :
    String :=
  (match err.error_description with
   | some d => d ++ " "
   | none =>
     if status = 401 then
       (if used_basic_auth then "provider rejected the oauth_client_secret"
        else "provider requires client authentication, and no oauth_client_secret is set")
         ++ " "
     else "")
    ++ "(" ++ (err.error.getD "") ++ ")"

/-- The C `struct token`: either the success fields or the error object is
populated. -/
structure CToken where
  access_token : Option String
  token_type : Option String
  err : TokenErr
deriving DecidableEq, Repr

/-- `finish_token_request`: 200 parses the access-token schema, 400/401
parse the RFC 6749 error object, anything else is an unexpected status. -/
def finish_token_request (status : Nat) (j : Json) : Except String CToken :=
  if status = 200 then
    match parse_oauth_json tokenFields j with
    | .error msg => .error msg
    | .ok st => .ok { access_token := slotLookup st.scalars 0
                      token_type := slotLookup st.scalars 1
                      err := { error := none, error_description := none } }
  else if status = 400 ∨ status = 401 then
    match parse_token_error j with
    | .error msg => .error msg
    | .ok e => .ok { access_token := none, token_type := none, err := e }
  else .error ("unexpected response code " ++ toString status)

/-- Wrap an integer into the 32-bit signed range, the machine behaviour of
the C `int` addition `actx->authz.interval += 5`. -/
def wrap32 (n : Int) : Int := (n + 2147483648) % 4294967296 - 2147483648

/-- `handle_token_response`: an access token ends the flow; in-band errors
other than `authorization_pending` and `slow_down` are fatal with the
assembled message; `slow_down` permanently adds 5 to the retry interval,
failing on 32-bit overflow (detected as wrap-around below the previous
value); otherwise the caller waits one interval and retries.  The result
carries the token (if obtained) and the updated interval. -/
def handle_token_response (used_basic_auth : Bool) (interval : Int)
    (status : Nat) (j : Json) : Except String (Option String × Int) :=
  match finish_token_request status j with
  | .error msg => .error msg
  | .ok tok =>
    match tok.access_token with
    | some t => .ok (some t, interval)
    | none =>
      let ev := tok.err.error.getD ""
      if ev ≠ "authorization_pending" ∧ ev ≠ "slow_down" then
        .error (record_token_error used_basic_auth status tok.err)
      else if ev = "slow_down" then
        let next := wrap32 (interval + 5)
        if next < interval then .error "slow_down interval overflow"
        else .ok (none, next)
      else .ok (none, interval)

/-- The token-endpoint body carrying a `slow_down` error. -/
def slowDownBody : Json := .jobj [("error", .jstr "slow_down")]

/-- N consecutive `slow_down` responses (HTTP 400) fed through
`handle_token_response`, threading the interval. -/
def slow_down_responses (used_basic_auth : Bool) : Nat → Int → Except String Int
  | 0, interval => .ok interval
  | n + 1, interval =>
    match handle_token_response used_basic_auth interval 400 slowDownBody with
    | .error msg => .error msg
    | .ok (_, next) => slow_down_responses used_basic_auth n next

/-! ## Issuer validation (`check_issuer`) -/

/-- The issuer-mismatch message with both values substituted. -/
def issuerMismatchMsg (provider_issuer conn_issuer : String) : String :=
  "the issuer identifier (" ++ provider_issuer ++ ") does not match oauth_issuer ("
    ++ conn_issuer ++ ")"

/-- `check_issuer`: `strcmp` equality between the configured
`conn->oauth_issuer_id` and the discovered `provider->issuer`; any
difference is a failure naming both. -/
def check_issuer (conn_issuer provider_issuer : String) : Except String Unit :=
  if conn_issuer = provider_issuer then .ok ()
  else .error (issuerMismatchMsg provider_issuer conn_issuer)

/-! ## Media-type checking (`check_content_type`) -/

/-- ASCII lower-casing of one byte, the behaviour of `pg_tolower`. -/
def pg_tolower (c : Nat) : Nat :=
  if 65 ≤ c ∧ c ≤ 90 then c + 32 else c

/-- Modelled from the spec: `pg_strncasecmp` (defined outside this tree, in
the postgres port library) compares up to `n` bytes ASCII
case-insensitively, stopping at a NUL terminator; here C strings are
NUL-free byte lists, so a string ending early only matches a string ending
at the same place.  Only the equality outcome is used by the caller. -/
def strncaseeq : Nat → List Nat → List Nat → Bool
  | 0, _, _ => true
  | _ + 1, [], [] => true
  | _ + 1, [], _ :: _ => false
  | _ + 1, _ :: _, [] => false
  | n + 1, a :: as, b :: bs => pg_tolower a = pg_tolower b && strncaseeq n as bs

/-- The scan after the matched media-type prefix: HTTP optional whitespace
(spaces, horizontal tabs) may precede a `;` starting the parameters;
anything else, or running off the end of the value, fails. -/
def scanParams : List Nat → Bool
  | [] => false
  | c :: rest =>
    if c = 59 then true
    else if c = 32 ∨ c = 9 then scanParams rest
    else false

/-- ASCII bytes of a Lean string. -/
def strBytes (s : String) : List Nat := s.data.map Char.toNat

/-- Byte list rendered back into a string (for error messages). -/
def bytesToStr (l : List Nat) : String := String.mk (l.map Char.ofNat)

/-- `check_content_type`: a missing header is its own error; otherwise the
value must start with the expected type (ASCII case-insensitively), followed
by either end-of-string or optional whitespace and a `;`; any other value is
reported back in quotes. -/
def check_content_type (content_type : Option (List Nat)) (expected : List Nat) :
    Except String Unit :=
  match content_type with
  | none => .error "no content type was provided"
  | some ct =>
    if strncaseeq expected.length ct expected then
      if ct.drop expected.length = [] then .ok ()
      else if scanParams (ct.drop expected.length) then .ok ()
      else .error ("unexpected content type: \"" ++ bytesToStr ct ++ "\"")
    else .error ("unexpected content type: \"" ++ bytesToStr ct ++ "\"")

/-- The expected media type of every OAuth response. -/
def applicationJson : List Nat := strBytes "application/json"

/-! ## URL encoding (`curl_easy_escape`, `append_urlencoded`, `urlencode`) -/

/-- The unreserved set of `curl_easy_escape`: ASCII alphanumerics and
`-`, `.`, `_`, `~`; every other byte is percent-escaped. -/
def unreservedByte (b : Nat) : Bool :=
  (65 ≤ b ∧ b ≤ 90) ∨ (97 ≤ b ∧ b ≤ 122) ∨ (48 ≤ b ∧ b ≤ 57)
    ∨ b = 45 ∨ b = 46 ∨ b = 95 ∨ b = 126

/-- Upper-case hexadecimal digit for a nibble. -/
def hexDigitUpper (n : Nat) : Nat := if n < 10 then 48 + n else 55 + n

/-- Escape a single byte as `curl_easy_escape` does: unreserved bytes pass
through, everything else becomes `%HH` with upper-case hex. -/
def escapeByte (b : Nat) : List Nat :=
  if unreservedByte b then [b]
  else [37, hexDigitUpper (b / 16), hexDigitUpper (b % 16)]

/-- `curl_easy_escape` over a whole byte string. -/
def curlEscape : List Nat → List Nat
  | [] => []
  | b :: rest => escapeByte b ++ curlEscape rest

/-- The search-and-replace loop of `append_urlencoded`: find each occurrence
of `%20` (scanning left to right, continuing after the match) and emit `+`
in its place. -/
def replacePlus : List Nat → List Nat
  | a :: c :: d :: rest =>
    if a = 37 ∧ c = 50 ∧ d = 48 then 43 :: replacePlus rest
    else a :: replacePlus (c :: d :: rest)
  | a :: rest => a :: replacePlus rest
  | [] => []

/-- `urlencode` (via `append_urlencoded` on an empty buffer): escape, then
rewrite every `%20` into `+`, giving the query flavour of
`application/x-www-form-urlencoded`. -/
def urlencode (s : List Nat) : List Nat := replacePlus (curlEscape s)

/-- The single output token the encoder produces for one input byte. -/
def urltok (b : Nat) : List Nat := if b = 32 then [43] else escapeByte b

/-- The whole output, one token per input byte. -/
def urltoks : List Nat → List Nat
  | [] => []
  | b :: rest => urltok b ++ urltoks rest

/-- Upper-case-hex digit set (digits and `A`–`F`). -/
def isHexUpper (c : Nat) : Bool := (48 ≤ c ∧ c ≤ 57) ∨ (65 ≤ c ∧ c ≤ 70)

/-- The output grammar claimed for the encoder: a sequence of unreserved
bytes, `+` signs, and `%HH` escapes. -/
inductive FormEncoded : List Nat → Prop where
  | nil : FormEncoded []
  | unres {b : Nat} {t : List Nat} (hb : unreservedByte b = true)
      (ht : FormEncoded t) : FormEncoded (b :: t)
  | plus {t : List Nat} (ht : FormEncoded t) : FormEncoded (43 :: t)
  | esc {h l : Nat} {t : List Nat} (hh : isHexUpper h = true)
      (hl : isHexUpper l = true) (ht : FormEncoded t) :
      FormEncoded (37 :: h :: l :: t)

/-- Numeric value of one hexadecimal digit byte (either case). -/
def hexVal (c : Nat) : Nat :=
  if 48 ≤ c ∧ c ≤ 57 then c - 48
  else if 65 ≤ c ∧ c ≤ 70 then c - 55
  else if 97 ≤ c ∧ c ≤ 102 then c - 87
  else 0

/-- Modelled from the spec: decoding under `application/x-www-form-urlencoded`
rules (`+` becomes a space, `%HH` becomes the byte it spells, everything
else is literal).  The decoder is part of the claimed round-trip property,
not of the C source. -/
def formDecode : List Nat → List Nat
  | b :: h :: l :: rest =>
    if b = 43 then 32 :: formDecode (h :: l :: rest)
    else if b = 37 then (hexVal h * 16 + hexVal l) :: formDecode rest
    else b :: formDecode (h :: l :: rest)
  | b :: rest =>
    if b = 43 then 32 :: formDecode rest
    else b :: formDecode rest
  | [] => []

/-- Does the byte string start with `%20`? -/
def startsP20 : List Nat → Bool
  | a :: b :: c :: _ => a = 37 ∧ b = 50 ∧ c = 48
  | _ => false

/-- Does `%20` occur anywhere in the byte string? -/
def hasP20 : List Nat → Bool
  | [] => false
  | b :: rest => startsP20 (b :: rest) || hasP20 rest

/-! ## Discovery and device-authorization finishers -/

/-- The cached `struct provider` (an empty grant list models the NULL
`curl_slist`). -/
structure Provider where
  issuer : Option String
  token_endpoint : Option String
  device_authorization_endpoint : Option String
  grant_types_supported : List String
deriving DecidableEq, Repr

/-- `parse_provider`: run the validator with `providerFields`. -/
def parse_provider (j : Json) : Except String Provider :=
  match parse_oauth_json providerFields j with
  | .error msg => .error msg
  | .ok st =>
    .ok { issuer := slotLookup st.scalars 0
          token_endpoint := slotLookup st.scalars 1
          device_authorization_endpoint := slotLookup st.scalars 2
          grant_types_supported := (slotLookup st.arrays 3).getD [] }

/-- `finish_discovery`: OIDC Discovery requires exactly HTTP 200; after
parsing, an absent `grant_types_supported` defaults to the OIDC Section 3
value. -/
def finish_discovery (status : Nat) (j : Json) : Except String Provider :=
  if status ≠ 200 then .error ("unexpected response code " ++ toString status)
  else
    match parse_provider j with
    | .error msg => .error msg
    | .ok p =>
      if p.grant_types_supported = [] then
        .ok { p with grant_types_supported := ["authorization_code", "implicit"] }
      else .ok p

/-- The device-code grant identifier constant. -/
def OAUTH_GRANT_TYPE_DEVICE_CODE : String := "urn:ietf:params:oauth:grant-type:device_code"

/-- `check_for_device_flow`: the provider must list the device-code grant
and give a device-authorization endpoint. -/
def check_for_device_flow (p : Provider) : Except String Unit :=
  if ¬ p.grant_types_supported.contains OAUTH_GRANT_TYPE_DEVICE_CODE then
    .error ("issuer \"" ++ (p.issuer.getD "") ++ "\" does not support device code grants")
  else if p.device_authorization_endpoint = none then
    .error ("issuer \"" ++ (p.issuer.getD "")
      ++ "\" does not provide a device authorization endpoint")
  else .ok ()

/-- `finish_device_authz`: HTTP 200 parses the RFC 8628 response; 400/401
parse the error object, whose message is immediately fatal here; any other
status is unexpected. -/
def finish_device_authz (debugging used_basic_auth : Bool) (status : Nat) (j : Json) :
    Except String DeviceAuthz :=
  if status = 200 then parse_device_authz debugging j
  else if status = 400 ∨ status = 401 then
    match parse_token_error j with
    | .error msg => .error msg
    | .ok err => .error (record_token_error used_basic_auth status err)
  else .error ("unexpected response code " ++ toString status)

/-! ## The poll-driven flow state machine (`pg_fe_run_oauth_flow_impl`) -/

/-- The `OAUTH_STEP_*` enum. -/
inductive OauthStep where
  | sInit
  | sDiscovery
  | sDeviceAuthorization
  | sTokenRequest
  | sWaitInterval
deriving DecidableEq, Repr

/-- Outcome of `drive_request` for an in-flight transfer: still pending
(`PGRES_POLLING_READING`), finished, or failed. -/
inductive DriveStatus where
  | pending
  | done
  | failed
deriving DecidableEq, Repr

/-- What one `poll()` returns to the host. -/
inductive PollResult where
  | reading
  | ok
  | failed
deriving DecidableEq, Repr

/-- The per-connection engine state relevant to the flow transitions: the
current step, the debug and Basic-auth flags, the one-shot user-prompt
latch, the cached documents, and the obtained token (`conn->oauth_token`). -/
structure FlowCtx where
  step : OauthStep
  debugging : Bool
  used_basic_auth : Bool
  user_prompted : Bool
  provider : Provider
  authz : DeviceAuthz
  token : Option String
deriving DecidableEq, Repr

/-- The environment of one iteration of the poll loop: whether the armed
interval timer has expired, the result of driving the in-flight transfer,
the finished response (HTTP status and parsed body), and the value the
host's `PQauthDataHook` returns when prompted. -/
structure FlowInput where
  timerExpired : Bool
  drive : DriveStatus
  status : Nat
  body : Json
  promptRes : Int

/-- Observable outcome of one iteration: the successor state, the poll
result, whether the auth-data hook was invoked and with which payload,
whether the stderr fallback prompt was printed, and the timer armed (in
milliseconds). -/
structure FlowOutcome where
  ctx : FlowCtx
  result : PollResult
  prompted : Bool
  promptPayload : Option (Option String × Option String)
  stderrPrompt : Bool
  timerSetMs : Option Int

/-- Outcome with no side observations. -/
def plainOutcome (ctx : FlowCtx) (result : PollResult) : FlowOutcome :=
  { ctx := ctx, result := result, prompted := false, promptPayload := none,
    stderrPrompt := false, timerSetMs := none }

/-- The second half of the loop body of `pg_fe_run_oauth_flow_impl`: the
transition out of the current step once any in-flight transfer has
finished.  Steps that start a request (or arm the timer) leave the engine
running, so the iteration returns `reading`; errors return `failed`; a
stored token returns `ok`. -/
def flowSecondHalf (conn_issuer : String) (ctx : FlowCtx) (inp : FlowInput) :
    FlowOutcome :=
  match ctx.step with
  | .sInit =>
    plainOutcome { ctx with step := .sDiscovery } .reading
  | .sDiscovery =>
    (match finish_discovery inp.status inp.body with
     | .error _ => plainOutcome ctx .failed
     | .ok p =>
       match check_issuer conn_issuer (p.issuer.getD "") with
       | .error _ => plainOutcome { ctx with provider := p } .failed
       | .ok _ =>
         match check_for_device_flow p with
         | .error _ => plainOutcome { ctx with provider := p } .failed
         | .ok _ =>
           plainOutcome { ctx with provider := p, step := .sDeviceAuthorization } .reading)
  | .sDeviceAuthorization =>
    (match finish_device_authz ctx.debugging ctx.used_basic_auth inp.status inp.body with
     | .error _ => plainOutcome ctx .failed
     | .ok authz =>
       plainOutcome { ctx with authz := authz, step := .sTokenRequest } .reading)
  | .sTokenRequest =>
    (match handle_token_response ctx.used_basic_auth ctx.authz.interval
        inp.status inp.body with
     | .error _ => plainOutcome ctx .failed
     | .ok (tokOpt, newInterval) =>
       let ctx2 : FlowCtx :=
         { ctx with
           authz := { ctx.authz with interval := newInterval }
           token := match tokOpt with | some t => some t | none => ctx.token }
       if ctx2.user_prompted then
         if ctx2.token.isSome then
           plainOutcome ctx2 .ok
         else
           { plainOutcome { ctx2 with step := .sWaitInterval } .reading with
             timerSetMs := some (newInterval * 1000) }
       else
         let payload := some (ctx2.authz.verification_uri, ctx2.authz.user_code)
         if inp.promptRes < 0 then
           { plainOutcome ctx2 .failed with prompted := true, promptPayload := payload }
         else
           let ctx3 := { ctx2 with user_prompted := true }
           if ctx3.token.isSome then
             { plainOutcome ctx3 .ok with
               prompted := true
               promptPayload := payload
               stderrPrompt := inp.promptRes = 0 }
           else
             { plainOutcome { ctx3 with step := .sWaitInterval } .reading with
               prompted := true
               promptPayload := payload
               stderrPrompt := inp.promptRes = 0
               timerSetMs := some (newInterval * 1000) })
  | .sWaitInterval =>
    plainOutcome { ctx with step := .sTokenRequest } .reading

/-- One iteration of the loop body of `pg_fe_run_oauth_flow_impl`.  The
first half drives the in-flight transfer for the three request steps
(pending transfers return `reading` without a transition, failures abort);
`OAUTH_STEP_INIT` falls straight through, and `OAUTH_STEP_WAIT_INTERVAL`
falls through without consulting the timer (the source carries a literal
`TODO check that the timer has expired` at that spot), so `inp.timerExpired`
is never read. -/
def flowStepIter (conn_issuer : String) (ctx : FlowCtx) (inp : FlowInput) :
    FlowOutcome :=
  match ctx.step with
  | .sDiscovery | .sDeviceAuthorization | .sTokenRequest =>
    (match inp.drive with
     | .failed => plainOutcome ctx .failed
     | .pending => plainOutcome ctx .reading
     | .done => flowSecondHalf conn_issuer ctx inp)
  | .sInit => flowSecondHalf conn_issuer ctx inp
  | .sWaitInterval => flowSecondHalf conn_issuer ctx inp

/-- A whole polling run: feed the engine one input per `poll()` while it
keeps returning `reading`, and count how often the auth-data hook is
invoked.  Terminal results stop the run (the host does not poll a finished
flow again). -/
def flowRun (conn_issuer : String) (ctx : FlowCtx) : List FlowInput → Nat
  | [] => 0
  | inp :: rest =>
    let o := flowStepIter conn_issuer ctx inp
    (if o.prompted then 1 else 0) +
      match o.result with
      | .reading => flowRun conn_issuer o.ctx rest
      | .ok => 0
      | .failed => 0

/-! ## Derived predicates used in the statements -/

/-- The invariant that makes the validator's duplicate checking sound: the
scalar-write log has pairwise distinct slots, and whenever a non-array field
is active its destination slot is still empty. -/
def ScalarInv (st : PState) : Prop :=
  (st.scalars.map Prod.fst).Nodup
    ∧ ∀ f, st.active = some f → f.jtype ≠ JTok.tarray →
        slotLookup st.scalars f.target = none

/-- Whether `handle_token_response` told its caller to wait and poll again
(success with no token stored). -/
def isRetryResult : Except String (Option String × Int) → Bool
  | .ok (none, _) => true
  | _ => false

/-- Acceptable `Content-Type` values as the spec phrases them: the expected
media type (ASCII case-insensitively) followed by either end-of-string or by
optional spaces/horizontal tabs and a `;` introducing parameters. -/
def acceptableContentType (expected ct : List Nat) : Prop :=
  expected.length ≤ ct.length
    ∧ (ct.take expected.length).map pg_tolower = expected.map pg_tolower
    ∧ (ct.drop expected.length = []
        ∨ ∃ ws tail, ct.drop expected.length = ws ++ 59 :: tail
            ∧ ∀ c ∈ ws, c = 32 ∨ c = 9)

/-- A populated device-authorization record for exercising the flow machine
on concrete polls. -/
def sampleAuthz : DeviceAuthz :=
  { device_code := some "DC"
    user_code := some "ABCD-EFGH"
    verification_uri := some "https://idp.example/v"
    interval_str := none
    interval := 5 }

/-- A provider document as cached after a successful discovery step. -/
def sampleProvider : Provider :=
  { issuer := some "https://idp.example/"
    token_endpoint := some "https://idp.example/t"
    device_authorization_endpoint := some "https://idp.example/d"
    grant_types_supported := [OAUTH_GRANT_TYPE_DEVICE_CODE] }

/-- A FlowContext sitting in `OAUTH_STEP_WAIT_INTERVAL` with the interval
timer armed (the user was already prompted on an earlier poll). -/
def waitIntervalCtx : FlowCtx :=
  { step := .sWaitInterval
    debugging := false
    used_basic_auth := false
    user_prompted := true
    provider := sampleProvider
    authz := sampleAuthz
    token := none }

/-- A poll arriving in `OAUTH_STEP_WAIT_INTERVAL` before the armed interval
timer has expired. -/
def pollBeforeExpiry : FlowInput :=
  { timerExpired := false
    drive := .done
    status := 0
    body := .jnull
    promptRes := 1 }

/-- A FlowContext about to finish its first token request; the user has not
been prompted yet. -/
def firstTokenReqCtx : FlowCtx :=
  { step := .sTokenRequest
    debugging := false
    used_basic_auth := false
    user_prompted := false
    provider := sampleProvider
    authz := sampleAuthz
    token := none }

/-- A poll whose token request finished at transport level (`drive_request`
returned OK) and whose response body is a fatal in-band error. -/
def fatalErrorPoll : FlowInput :=
  { timerExpired := true
    drive := .done
    status := 400
    body := .jobj [("error", .jstr "access_denied")]
    promptRes := 1 }

/-- A poll whose token request finished at transport level with a retryable
`authorization_pending` body; the host's hook returns 0 (declined), which
must trigger the stderr fallback. -/
def pendingPoll : FlowInput :=
  { timerExpired := true
    drive := .done
    status := 400
    body := .jobj [("error", .jstr "authorization_pending")]
    promptRes := 0 }

/-! ## Helper lemmas -/

theorem slotLookup_none_iff {α : Type} (l : List (Nat × α)) (k : Nat) :
    slotLookup l k = none ↔ k ∉ l.map Prod.fst := by
  induction l with
  | nil => simp [slotLookup]
  | cons p rest ih =>
    obtain ⟨a, v⟩ := p
    by_cases h : a = k
    · subst h
      simp [slotLookup]
    · simp [slotLookup, h, ih, Ne.symm h]

theorem slotLookup_cons_ne {α : Type} (l : List (Nat × α)) (a k : Nat) (v : α)
    (h : a ≠ k) : slotLookup ((a, v) :: l) k = slotLookup l k := by
  simp [slotLookup, h]

/-- C6: `check_issuer` accepts exactly when the configured issuer identifier
and the discovered issuer string are equal as byte strings (no
normalization); on any difference it fails with a message containing both
values. -/
theorem claim_C6_issuer_byte_exact (conn_issuer provider_issuer : String) :
    (check_issuer conn_issuer provider_issuer = .ok () ↔ conn_issuer = provider_issuer)
    ∧ (conn_issuer ≠ provider_issuer →
        check_issuer conn_issuer provider_issuer
            = .error (issuerMismatchMsg provider_issuer conn_issuer)
        ∧ List.IsInfix provider_issuer.data (issuerMismatchMsg provider_issuer conn_issuer).data
        ∧ List.IsInfix conn_issuer.data (issuerMismatchMsg provider_issuer conn_issuer).data) := by
  constructor
  · by_cases h : conn_issuer = provider_issuer <;> simp [check_issuer, h]
  · intro h
    refine ⟨by simp [check_issuer, h], ?_, ?_⟩
    · refine ⟨("the issuer identifier (").data,
        (") does not match oauth_issuer (" ++ conn_issuer ++ ")").data, ?_⟩
      simp [issuerMismatchMsg, String.data_append]
    · refine ⟨("the issuer identifier (" ++ provider_issuer
        ++ ") does not match oauth_issuer (").data, (")" : String).data, ?_⟩
      simp [issuerMismatchMsg, String.data_append]

theorem claim_C6_witness :
    (("https://idp.example/" : String) ≠ "https://other.example/")
    ∧ (check_issuer "https://idp.example/" "https://other.example/"
        = .error (issuerMismatchMsg "https://other.example/" "https://idp.example/")
      ∧ List.IsInfix ("https://other.example/" : String).data
          (issuerMismatchMsg "https://other.example/" "https://idp.example/").data
      ∧ List.IsInfix ("https://idp.example/" : String).data
          (issuerMismatchMsg "https://other.example/" "https://idp.example/").data)
    ∧ check_issuer "https://idp.example/" "https://idp.example/" = .ok () := by
  refine ⟨by decide, ?_, ?_⟩
  · exact (claim_C6_issuer_byte_exact "https://idp.example/" "https://other.example/").2
      (by decide)
  · exact (claim_C6_issuer_byte_exact "https://idp.example/" "https://idp.example/").1.mpr rfl

theorem requiredCheck_ok (fl : List JField) :
    ∀ (st st2 : PState), requiredCheck st fl = .ok st2 → st2 = st := by
  induction fl with
  | nil => intro st st2 h; simp only [requiredCheck, Except.ok.injEq] at h; exact h.symm
  | cons f rest ih =>
    intro st st2 h
    simp only [requiredCheck] at h
    split at h
    · cases h
    · exact ih st st2 h

theorem stepEvent_target_untouched (fields : List JField) (t : Nat)
    (st st1 : PState) (e : JEvent)
    (hev : ∀ n, e = JEvent.fieldEv n → ∀ f, findField fields n = some f → f.target ≠ t)
    (hact : ∀ f, st.active = some f → f.target ≠ t)
    (hsl : slotLookup st.scalars t = none)
    (hstep : stepEvent fields st e = .ok st1) :
    (∀ f, st1.active = some f → f.target ≠ t) ∧ slotLookup st1.scalars t = none := by
  cases e with
  | objStart =>
    simp only [stepEvent, oauthObjectStart] at hstep
    split at hstep
    · cases hstep
    · simp only [Except.ok.injEq] at hstep
      subst hstep
      next hnone => exact ⟨by simp [hnone], hsl⟩
  | objEnd =>
    simp only [stepEvent, oauthObjectEnd, Except.ok.injEq] at hstep
    subst hstep
    exact ⟨hact, hsl⟩
  | fieldEv n =>
    simp only [stepEvent, oauthFieldStart] at hstep
    split at hstep
    · split at hstep
      · simp only [Except.ok.injEq] at hstep
        subst hstep
        exact ⟨hact, hsl⟩
      · split at hstep
        · cases hstep
        · simp only [Except.ok.injEq] at hstep
          subst hstep
          next f hfind _ =>
          refine ⟨?_, hsl⟩
          intro g hg
          simp only [Option.some.injEq] at hg
          subst hg
          exact hev n rfl f hfind
    · simp only [Except.ok.injEq] at hstep
      subst hstep
      exact ⟨hact, hsl⟩
  | arrStart =>
    simp only [stepEvent, oauthArrayStart] at hstep
    split at hstep
    · cases hstep
    · split at hstep
      · split at hstep
        · cases hstep
        · simp only [Except.ok.injEq] at hstep
          subst hstep
          exact ⟨hact, hsl⟩
      · simp only [Except.ok.injEq] at hstep
        subst hstep
        exact ⟨hact, hsl⟩
  | arrEnd =>
    simp only [stepEvent, oauthArrayEnd] at hstep
    split at hstep
    · simp only [Except.ok.injEq] at hstep
      subst hstep
      exact ⟨by simp, hsl⟩
    · simp only [Except.ok.injEq] at hstep
      subst hstep
      exact ⟨hact, hsl⟩
  | scalar s ty =>
    simp only [stepEvent, oauthScalar] at hstep
    split at hstep
    · cases hstep
    · split at hstep
      · simp only [Except.ok.injEq] at hstep
        subst hstep
        exact ⟨hact, hsl⟩
      · next f hf =>
        split at hstep
        · split at hstep
          · cases hstep
          · split at hstep
            · cases hstep
            · simp only [Except.ok.injEq] at hstep
              subst hstep
              exact ⟨fun g hg => hact g hg, hsl⟩
        · split at hstep
          · cases hstep
          · simp only [Except.ok.injEq] at hstep
            subst hstep
            refine ⟨by simp, ?_⟩
            have hft : f.target ≠ t := hact f hf
            simpa [slotLookup_cons_ne _ _ _ _ hft] using hsl

theorem runEvents_target_untouched (fields : List JField) (t : Nat) :
    ∀ (evs : List JEvent) (st st2 : PState),
      (∀ n, JEvent.fieldEv n ∈ evs → ∀ f, findField fields n = some f → f.target ≠ t) →
      (∀ f, st.active = some f → f.target ≠ t) →
      slotLookup st.scalars t = none →
      runEvents fields st evs = .ok st2 →
      slotLookup st2.scalars t = none := by
  intro evs
  induction evs with
  | nil =>
    intro st st2 _ _ hsl hrun
    simp only [runEvents, Except.ok.injEq] at hrun
    exact hrun ▸ hsl
  | cons e rest ih =>
    intro st st2 hev hact hsl hrun
    simp only [runEvents] at hrun
    cases hstep : stepEvent fields st e with
    | error msg => rw [hstep] at hrun; cases hrun
    | ok st1 =>
      rw [hstep] at hrun
      obtain ⟨hact1, hsl1⟩ := stepEvent_target_untouched fields t st st1 e
        (fun n hn => hev n (hn ▸ List.mem_cons_self e rest)) hact hsl hstep
      exact ih st1 st2 (fun n hn => hev n (List.mem_cons_of_mem e hn)) hact1 hsl1 hrun

theorem findField_deviceAuthz_not_interval (n : String) (f : JField)
    (hn : n ≠ "interval") (h : findField deviceAuthzFields n = some f) :
    f.target ≠ 3 := by
  simp only [deviceAuthzFields, findField] at h
  split_ifs at h with h1 h2 h3 h4 h5 <;>
    first
      | (exact absurd h5.symm hn)
      | (cases h; decide)

/-- C5: `parse_interval` returns the ceiling of the parsed numeric value,
clamped below at 1 (at 0 in debug mode) and capped at `INT_MAX`; and when
no `interval` member occurs in the device-authorization response,
`parse_device_authz` sets the interval to the RFC 8628 default of 5.  (The
model keeps the exact value of the lexed decimal; the C code's intermediate
`double` conversion is abstracted as exact.) -/
theorem claim_C5_interval_clamp :
    (∀ (debugging : Bool) (q : ℚ),
      parse_interval debugging q
        = min intMax (max (if debugging then 0 else 1) ⌈q⌉))
    ∧ (∀ (debugging : Bool) (j : Json),
        (∀ n, JEvent.fieldEv n ∈ jsonEvents j → n ≠ "interval") →
        ∀ a, parse_device_authz debugging j = .ok a → a.interval = 5) := by
  constructor
  · intro d q
    cases d <;>
      · simp only [parse_interval, intMax, if_true, if_false]
        split_ifs <;> omega
  · intro d j hev a hpda
    simp only [parse_device_authz] at hpda
    cases hp : parse_oauth_json deviceAuthzFields j with
    | error m => rw [hp] at hpda; cases hpda
    | ok st =>
      rw [hp] at hpda
      simp only [Except.ok.injEq] at hpda
      have h3 : slotLookup st.scalars 3 = none := by
        simp only [parse_oauth_json] at hp
        cases hr : runEvents deviceAuthzFields initPState (jsonEvents j) with
        | error m => rw [hr] at hp; cases hp
        | ok st0 =>
          rw [hr] at hp
          have hst : st = st0 := requiredCheck_ok _ _ _ hp
          subst hst
          exact runEvents_target_untouched deviceAuthzFields 3 _ initPState st
            (fun n hn f hf => findField_deviceAuthz_not_interval n f (hev n hn) hf)
            (by intro f hf; simp [initPState] at hf)
            (by simp [initPState, slotLookup]) hr
      rw [h3] at hpda
      rw [← hpda]

theorem eventsNoIntervalKey (evs : List JEvent) :
    (∀ n, JEvent.fieldEv n ∈ evs → n ≠ "interval")
      ↔ JEvent.fieldEv "interval" ∉ evs := by
  constructor
  · intro h hmem
    exact h "interval" hmem rfl
  · intro h n hn he
    subst he
    exact h hn

theorem claim_C5_witness :
    (parse_interval false (7 / 2 : ℚ)
      = min intMax (max (if false then 0 else 1) ⌈(7 / 2 : ℚ)⌉))
    ∧ ∃ a : DeviceAuthz,
        parse_device_authz false
          (.jobj [("device_code", .jstr "DC"), ("user_code", .jstr "UC"),
                  ("verification_uri", .jstr "V")]) = .ok a
        ∧ a.interval = 5 := by
  constructor
  · exact claim_C5_interval_clamp.1 false (7 / 2)
  · refine ⟨⟨some "DC", some "UC", some "V", none, 5⟩, rfl, ?_⟩
    exact claim_C5_interval_clamp.2 false
      (.jobj [("device_code", .jstr "DC"), ("user_code", .jstr "UC"),
              ("verification_uri", .jstr "V")])
      ((eventsNoIntervalKey _).mpr (by decide))
      _ rfl

theorem stepEvent_scalarInv (fields : List JField) (st st1 : PState) (e : JEvent)
    (hinv : ScalarInv st) (hstep : stepEvent fields st e = .ok st1) :
    ScalarInv st1 := by
  obtain ⟨hnd, hact⟩ := hinv
  cases e with
  | objStart =>
    simp only [stepEvent, oauthObjectStart] at hstep
    split at hstep
    · cases hstep
    · simp only [Except.ok.injEq] at hstep
      subst hstep
      exact ⟨hnd, hact⟩
  | objEnd =>
    simp only [stepEvent, oauthObjectEnd, Except.ok.injEq] at hstep
    subst hstep
    exact ⟨hnd, hact⟩
  | fieldEv n =>
    simp only [stepEvent, oauthFieldStart] at hstep
    split at hstep
    · split at hstep
      · simp only [Except.ok.injEq] at hstep
        subst hstep
        exact ⟨hnd, hact⟩
      · split at hstep
        · cases hstep
        · simp only [Except.ok.injEq] at hstep
          subst hstep
          next f _ hpop =>
          refine ⟨hnd, ?_⟩
          intro g hg hgt
          simp only [Option.some.injEq] at hg
          subst hg
          cases hjt : f.jtype <;> simp only [fieldPopulated, hjt] at hpop
          case tarray => exact absurd hjt hgt
          all_goals
            cases hsl : slotLookup st.scalars f.target with
            | none => rfl
            | some v => rw [hsl] at hpop; simp at hpop
    · simp only [Except.ok.injEq] at hstep
      subst hstep
      exact ⟨hnd, hact⟩
  | arrStart =>
    simp only [stepEvent, oauthArrayStart] at hstep
    split at hstep
    · cases hstep
    · split at hstep
      · split at hstep
        · cases hstep
        · simp only [Except.ok.injEq] at hstep
          subst hstep
          exact ⟨hnd, hact⟩
      · simp only [Except.ok.injEq] at hstep
        subst hstep
        exact ⟨hnd, hact⟩
  | arrEnd =>
    simp only [stepEvent, oauthArrayEnd] at hstep
    split at hstep
    · simp only [Except.ok.injEq] at hstep
      subst hstep
      exact ⟨hnd, by simp⟩
    · simp only [Except.ok.injEq] at hstep
      subst hstep
      exact ⟨hnd, hact⟩
  | scalar s ty =>
    simp only [stepEvent, oauthScalar] at hstep
    split at hstep
    · cases hstep
    · split at hstep
      · simp only [Except.ok.injEq] at hstep
        subst hstep
        exact ⟨hnd, hact⟩
      · next f hf =>
        split at hstep
        · split at hstep
          · cases hstep
          · split at hstep
            · cases hstep
            · simp only [Except.ok.injEq] at hstep
              subst hstep
              next harr _ _ =>
              exact ⟨hnd, fun g hg hgt => hact g hg hgt⟩
        · split at hstep
          · cases hstep
          · simp only [Except.ok.injEq] at hstep
            subst hstep
            next hnarr _ =>
            have hnone : slotLookup st.scalars f.target = none := hact f hf hnarr
            refine ⟨?_, by simp⟩
            simp only [List.map_cons, List.nodup_cons]
            exact ⟨(slotLookup_none_iff st.scalars f.target).mp hnone, hnd⟩

theorem runEvents_scalarInv (fields : List JField) :
    ∀ (evs : List JEvent) (st st2 : PState),
      ScalarInv st → runEvents fields st evs = .ok st2 → ScalarInv st2 := by
  intro evs
  induction evs with
  | nil =>
    intro st st2 hinv hrun
    simp only [runEvents, Except.ok.injEq] at hrun
    exact hrun ▸ hinv
  | cons e rest ih =>
    intro st st2 hinv hrun
    simp only [runEvents] at hrun
    cases hstep : stepEvent fields st e with
    | error msg => rw [hstep] at hrun; cases hrun
    | ok st1 =>
      rw [hstep] at hrun
      exact ih st1 st2 (stepEvent_scalarInv fields st st1 e hinv hstep) hrun

/-- C1 (counterexample): a response whose top-level key `x` appears twice is
accepted by the validator when `x` matches no declared field — the duplicate
check only fires for declared fields — so the claim "any repeated top-level
key fails the parse" is false as stated. -/
theorem claim_C1_counterexample :
    parse_oauth_json tokenErrorFields
        (.jobj [("error", .jstr "e"), ("x", .jstr "1"), ("x", .jstr "2")])
      = .ok { nested := 0, active := none, scalars := [(0, "e")], arrays := [] } := by
  rfl

/-- C1 (amended): the validator rejects a repeated top-level key exactly
when the key matches a declared field whose destination slot is already
populated, with the fatal message `field "..." is duplicated`; consequently
a successful parse never writes a destination slot twice (the scalar-write
log of the final state carries pairwise distinct slots).  Repeated keys that
match no declared field are ignored. -/
theorem claim_C1_duplicate_keys :
    (∀ (fields : List JField) (st : PState) (name : String) (f : JField),
      st.nested = 1 → findField fields name = some f → fieldPopulated st f = true →
      oauthFieldStart fields st name
        = .error ("field \"" ++ f.name ++ "\" is duplicated"))
    ∧ (∀ (fields : List JField) (j : Json) (st : PState),
        runEvents fields initPState (jsonEvents j) = .ok st →
        (st.scalars.map Prod.fst).Nodup) := by
  constructor
  · intro fields st name f hn hfind hpop
    simp [oauthFieldStart, hn, hfind, hpop]
  · intro fields j st hrun
    have hinv : ScalarInv st := by
      refine runEvents_scalarInv fields (jsonEvents j) initPState st ?_ hrun
      constructor
      · simp [initPState]
      · intro f hf
        simp [initPState] at hf
    exact hinv.1

theorem claim_C1_witness :
    ((1 : Nat) = 1
      ∧ findField tokenErrorFields "error"
          = some { name := "error", jtype := .tstring, target := 0, required := true }
      ∧ fieldPopulated
          { nested := 1, active := none, scalars := [(0, "e")], arrays := [] }
          { name := "error", jtype := .tstring, target := 0, required := true } = true
      ∧ oauthFieldStart tokenErrorFields
          { nested := 1, active := none, scalars := [(0, "e")], arrays := [] } "error"
          = .error "field \"error\" is duplicated")
    ∧ (runEvents tokenErrorFields initPState
          (jsonEvents (.jobj [("error", .jstr "e")]))
        = .ok { nested := 0, active := none, scalars := [(0, "e")], arrays := [] }
      ∧ (([(0, "e")] : List (Nat × String)).map Prod.fst).Nodup) := by
  constructor
  · refine ⟨rfl, rfl, rfl, ?_⟩
    exact claim_C1_duplicate_keys.1 tokenErrorFields
      { nested := 1, active := none, scalars := [(0, "e")], arrays := [] } "error"
      { name := "error", jtype := .tstring, target := 0, required := true } rfl rfl rfl
  · refine ⟨rfl, ?_⟩
    exact claim_C1_duplicate_keys.2 tokenErrorFields (.jobj [("error", .jstr "e")])
      { nested := 0, active := none, scalars := [(0, "e")], arrays := [] } rfl

/-- C2 (counterexample): a nested object sitting under an unknown top-level
key is accepted — `oauth_json_object_start` only rejects when a declared
field is active — so the claim "nested objects anywhere are rejected" is
false as stated. -/
theorem claim_C2_counterexample :
    parse_oauth_json tokenErrorFields
        (.jobj [("error", .jstr "e"), ("extra", .jobj [("a", .jnum "1")])])
      = .ok { nested := 0, active := none, scalars := [(0, "e")], arrays := [] } := by
  rfl

/-- C2 (amended): an inner object start is rejected (with the active field's
type-mismatch message) precisely when some declared field is being parsed;
with no active declared field the object is walked with a raised nesting
level and its contents are ignored by the top-level-only field matching. -/
theorem claim_C2_nested_objects (fields : List JField) (st : PState) :
    (∀ f, st.active = some f →
      stepEvent fields st .objStart = .error (typeMismatchMsg f))
    ∧ (st.active = none →
      stepEvent fields st .objStart = .ok { st with nested := st.nested + 1 }) := by
  constructor
  · intro f hf
    simp [stepEvent, oauthObjectStart, hf]
  · intro hf
    simp [stepEvent, oauthObjectStart, hf]

theorem claim_C2_witness :
    ((⟨1, some ⟨"issuer", .tstring, 0, true⟩, [], []⟩ : PState).active
        = some ⟨"issuer", .tstring, 0, true⟩)
    ∧ stepEvent providerFields
        (⟨1, some ⟨"issuer", .tstring, 0, true⟩, [], []⟩ : PState) .objStart
        = .error (typeMismatchMsg ⟨"issuer", .tstring, 0, true⟩) := by
  refine ⟨rfl, ?_⟩
  exact (claim_C2_nested_objects providerFields
      (⟨1, some ⟨"issuer", .tstring, 0, true⟩, [], []⟩ : PState)).1
    ⟨"issuer", .tstring, 0, true⟩ rfl

theorem handle_slow_down (uba : Bool) (i : Int) :
    handle_token_response uba i 400 slowDownBody
      = (if wrap32 (i + 5) < i then .error "slow_down interval overflow"
         else .ok (none, wrap32 (i + 5))) := by
  rfl

theorem wrap32_add_five (i : Int) (h0 : 0 ≤ i) (h1 : i ≤ intMax) :
    (i + 5 ≤ intMax → wrap32 (i + 5) = i + 5 ∧ ¬ wrap32 (i + 5) < i)
    ∧ (intMax < i + 5 → wrap32 (i + 5) < i) := by
  unfold wrap32 intMax at *
  omega

/-- C3: starting from any in-range interval, N consecutive `slow_down`
responses leave the interval at `initial + 5·N` when that stays within the
32-bit signed range, and otherwise fail the flow with the
`slow_down interval overflow` error at the step that would overflow. -/
theorem claim_C3_slow_down_sum (uba : Bool) :
    ∀ (n : Nat) (i : Int), 0 ≤ i → i ≤ intMax →
      (i + 5 * n ≤ intMax → slow_down_responses uba n i = .ok (i + 5 * n))
      ∧ (intMax < i + 5 * n →
          slow_down_responses uba n i = .error "slow_down interval overflow") := by
  intro n
  induction n with
  | zero =>
    intro i h0 h1
    constructor
    · intro _
      simp [slow_down_responses]
    · intro hlt
      exfalso
      simp only [Nat.cast_zero, mul_zero, add_zero] at hlt
      omega
  | succ n ih =>
    intro i h0 h1
    have hw := wrap32_add_five i h0 h1
    by_cases hov : i + 5 ≤ intMax
    · obtain ⟨heq, hnlt⟩ := hw.1 hov
      have hstep : slow_down_responses uba (n + 1) i
          = slow_down_responses uba n (i + 5) := by
        simp only [slow_down_responses, handle_slow_down, heq]
        rw [if_neg (show ¬ (i + 5 < i) by omega)]
      have ih2 := ih (i + 5) (by omega) hov
      constructor
      · intro hle
        rw [hstep]
        have : i + 5 + 5 * n ≤ intMax := by push_cast at hle ⊢; omega
        rw [(ih2.1 this)]
        congr 1
        push_cast
        ring
      · intro hgt
        rw [hstep]
        apply ih2.2
        push_cast at hgt ⊢
        omega
    · have hlt : wrap32 (i + 5) < i := hw.2 (by omega)
      have hstep : slow_down_responses uba (n + 1) i
          = .error "slow_down interval overflow" := by
        simp only [slow_down_responses, handle_slow_down, if_pos hlt]
      constructor
      · intro hle
        exfalso
        push_cast at hle
        omega
      · intro _
        exact hstep

theorem claim_C3_witness :
    ((0 : Int) ≤ 3 ∧ (3 : Int) ≤ intMax ∧ (3 : Int) + 5 * (2 : Nat) ≤ intMax
      ∧ slow_down_responses false 2 3 = .ok (3 + 5 * (2 : Nat)))
    ∧ (0 ≤ intMax ∧ intMax ≤ intMax ∧ intMax < intMax + 5 * (1 : Nat)
      ∧ slow_down_responses false 1 intMax
          = .error "slow_down interval overflow") := by
  constructor
  · refine ⟨by decide, by decide, by decide, ?_⟩
    exact (claim_C3_slow_down_sum false 2 3 (by decide) (by decide)).1 (by decide)
  · refine ⟨by decide, le_refl _, by decide, ?_⟩
    exact (claim_C3_slow_down_sum false 1 intMax (by decide)
      (le_refl _)).2 (by decide)

theorem token_error_parse_400 (e : String) :
    finish_token_request 400 (.jobj [("error", .jstr e)])
      = .ok ⟨none, none, ⟨some e, none⟩⟩ := by
  rfl

theorem token_error_parse_401 (e : String) :
    finish_token_request 401 (.jobj [("error", .jstr e)])
      = .ok ⟨none, none, ⟨some e, none⟩⟩ := by
  rfl

/-- C4 (counterexample): an in-band `slow_down` error is not always
retryable — when the interval is already at `INT_MAX` the 5-second increase
overflows and `handle_token_response` fails the flow instead of waiting —
so the "retryable if and only if the error is `authorization_pending` or
`slow_down`" claim is false as stated. -/
theorem claim_C4_counterexample :
    isRetryResult (handle_token_response false intMax 400
        (.jobj [("error", .jstr "slow_down")])) = false
    ∧ handle_token_response false intMax 400 (.jobj [("error", .jstr "slow_down")])
        = .error "slow_down interval overflow" := by
  exact ⟨rfl, rfl⟩

/-- C4 (amended): for a token-endpoint error response with status 400 or
401, `handle_token_response` reports a retryable outcome exactly when the
error is `authorization_pending`, or is `slow_down` and the 5-second
interval increase does not overflow; any other error value is fatal, and the
flow fails with the message assembled by `record_token_error`. -/
theorem claim_C4_retryable_errors (uba : Bool) (i : Int) (status : Nat) (e : String)
    (hst : status = 400 ∨ status = 401) :
    (isRetryResult (handle_token_response uba i status (.jobj [("error", .jstr e)]))
        = true
      ↔ (e = "authorization_pending" ∨ (e = "slow_down" ∧ ¬ wrap32 (i + 5) < i)))
    ∧ (e ≠ "authorization_pending" → e ≠ "slow_down" →
        handle_token_response uba i status (.jobj [("error", .jstr e)])
          = .error (record_token_error uba status ⟨some e, none⟩)) := by
  have main : ∀ (status2 : Nat),
      finish_token_request status2 (.jobj [("error", .jstr e)])
        = .ok ⟨none, none, ⟨some e, none⟩⟩ →
      (isRetryResult (handle_token_response uba i status2 (.jobj [("error", .jstr e)]))
          = true
        ↔ (e = "authorization_pending" ∨ (e = "slow_down" ∧ ¬ wrap32 (i + 5) < i)))
      ∧ (e ≠ "authorization_pending" → e ≠ "slow_down" →
          handle_token_response uba i status2 (.jobj [("error", .jstr e)])
            = .error (record_token_error uba status2 ⟨some e, none⟩)) := by
    intro status2 hfin
    by_cases hap : e = "authorization_pending"
    · subst hap
      constructor
      · simp [handle_token_response, hfin, isRetryResult]
      · intro h
        exact absurd rfl h
    · by_cases hsd : e = "slow_down"
      · subst hsd
        constructor
        · by_cases hov : wrap32 (i + 5) < i <;>
            simp [handle_token_response, hfin, isRetryResult, hov]
        · intro _ h
          exact absurd rfl h
      · constructor
        · simp [handle_token_response, hfin, isRetryResult, hap, hsd]
        · intro _ _
          simp [handle_token_response, hfin, hap, hsd]
  rcases hst with rfl | rfl
  · exact main 400 (token_error_parse_400 e)
  · exact main 401 (token_error_parse_401 e)

theorem claim_C4_witness :
    ((400 = 400 ∨ 400 = 401)
      ∧ isRetryResult (handle_token_response false 5 400
          (.jobj [("error", .jstr "authorization_pending")])) = true
      ∧ (("access_denied" : String) ≠ "authorization_pending")
      ∧ (("access_denied" : String) ≠ "slow_down")
      ∧ handle_token_response false 5 400 (.jobj [("error", .jstr "access_denied")])
          = .error (record_token_error false 400 ⟨some "access_denied", none⟩)) := by
  refine ⟨Or.inl rfl, ?_, by decide, by decide, ?_⟩
  · exact (claim_C4_retryable_errors false 5 400 "authorization_pending"
      (Or.inl rfl)).1.mpr (Or.inl rfl)
  · exact (claim_C4_retryable_errors false 5 400 "access_denied" (Or.inl rfl)).2
      (by decide) (by decide)

/-- C7: contrary to the specified transition rule, a poll arriving while the
engine sits in `OAUTH_STEP_WAIT_INTERVAL` starts the next token request
regardless of whether the armed interval timer has expired — the first-half
switch in `pg_fe_run_oauth_flow_impl` falls through for that step with only
a `TODO check that the timer has expired` comment, so the timer state is
never consulted.  In particular, with `timerExpired = false` the engine
still transitions to `OAUTH_STEP_TOKEN_REQUEST`. -/
theorem claim_C7_wait_interval_ignores_timer :
    (∀ (te : Bool),
      (flowStepIter "https://idp.example/" waitIntervalCtx
          { pollBeforeExpiry with timerExpired := te }).ctx.step
        = .sTokenRequest)
    ∧ pollBeforeExpiry.timerExpired = false
    ∧ (flowStepIter "https://idp.example/" waitIntervalCtx pollBeforeExpiry).ctx.step
        = .sTokenRequest
    ∧ (flowStepIter "https://idp.example/" waitIntervalCtx pollBeforeExpiry).result
        = .reading := by
  refine ⟨?_, rfl, rfl, rfl⟩
  intro te
  cases te <;> rfl

/-- C8 (counterexample): the user prompt does not happen after every token
request that merely succeeds at transport level — when the response body
carries a fatal in-band error (`access_denied`), `handle_token_response`
fails first and the flow aborts without ever invoking the auth-data hook —
so the "regardless of the content of its response" claim is false as
stated. -/
theorem claim_C8_counterexample :
    fatalErrorPoll.drive = .done
    ∧ firstTokenReqCtx.user_prompted = false
    ∧ (flowStepIter "https://idp.example/" firstTokenReqCtx fatalErrorPoll).prompted
        = false
    ∧ (flowStepIter "https://idp.example/" firstTokenReqCtx fatalErrorPoll).result
        = .failed := by
  exact ⟨rfl, rfl, rfl, rfl⟩

theorem flowStep_prompt_latch (iss : String) (ctx : FlowCtx) (inp : FlowInput) :
    (ctx.user_prompted = true →
      (flowStepIter iss ctx inp).prompted = false
      ∧ (flowStepIter iss ctx inp).ctx.user_prompted = true)
    ∧ ((flowStepIter iss ctx inp).prompted = true →
        (flowStepIter iss ctx inp).result = .reading →
        (flowStepIter iss ctx inp).ctx.user_prompted = true) := by
  constructor
  · intro hup
    cases hstep : ctx.step <;>
      cases hdrive : inp.drive <;>
      simp only [flowStepIter, hstep, hdrive, flowSecondHalf, plainOutcome] <;>
      (repeat' split) <;>
      simp_all [plainOutcome]
  · intro hpr hres
    cases hstep : ctx.step <;>
      cases hdrive : inp.drive <;>
      simp only [flowStepIter, hstep, hdrive, flowSecondHalf, plainOutcome]
        at hpr hres ⊢ <;>
      (repeat' split at hpr) <;>
      (repeat' split at hres) <;>
      (repeat' split) <;>
      simp_all [plainOutcome]

theorem flowRun_prompt_bound (iss : String) :
    ∀ (inps : List FlowInput) (ctx : FlowCtx),
      flowRun iss ctx inps ≤ if ctx.user_prompted then 0 else 1 := by
  intro inps
  induction inps with
  | nil =>
    intro ctx
    simp [flowRun]
  | cons inp rest ih =>
    intro ctx
    simp only [flowRun]
    have hlatch := flowStep_prompt_latch iss ctx inp
    set o := flowStepIter iss ctx inp with ho
    by_cases hup : ctx.user_prompted = true
    · obtain ⟨hpr, hctx⟩ := hlatch.1 hup
      rw [hup, hpr]
      cases hres : o.result <;> simp
      have h2 := ih o.ctx
      rw [hctx] at h2
      simpa using h2
    · have hup2 : ctx.user_prompted = false := by
        revert hup
        cases ctx.user_prompted <;> simp
      rw [hup2]
      cases hpr : o.prompted
      · cases hres : o.result <;> simp
        exact le_trans (ih o.ctx) (by split <;> omega)
      · cases hres : o.result <;> simp
        have hctx := hlatch.2 hpr hres
        have h2 := ih o.ctx
        rw [hctx] at h2
        simpa using h2

/-- C8 (amended): after a token request that finishes at transport level and
whose response `handle_token_response` accepts (an access token or a
retryable in-band error), an engine that has not yet prompted invokes the
host's auth-data hook with the verification URI and user code; a negative
hook result fails the flow, a zero result makes the engine print the stderr
fallback instruction; and across any whole polling run the hook is invoked
at most once per FlowContext. -/
theorem claim_C8_prompt_once (iss : String) :
    (∀ (ctx : FlowCtx) (inp : FlowInput) (r : Option String × Int),
      ctx.step = .sTokenRequest → inp.drive = .done → ctx.user_prompted = false →
      handle_token_response ctx.used_basic_auth ctx.authz.interval inp.status inp.body
        = .ok r →
      (flowStepIter iss ctx inp).prompted = true
      ∧ (flowStepIter iss ctx inp).promptPayload
          = some (ctx.authz.verification_uri, ctx.authz.user_code)
      ∧ (inp.promptRes < 0 → (flowStepIter iss ctx inp).result = .failed)
      ∧ (0 ≤ inp.promptRes →
          (flowStepIter iss ctx inp).ctx.user_prompted = true
          ∧ (flowStepIter iss ctx inp).stderrPrompt = decide (inp.promptRes = 0)))
    ∧ (∀ (ctx : FlowCtx) (inps : List FlowInput),
        ctx.user_prompted = false → flowRun iss ctx inps ≤ 1) := by
  constructor
  · intro ctx inp r hstep hdrive hup hh
    obtain ⟨tokOpt, newInterval⟩ := r
    simp only [flowStepIter, hstep, hdrive, flowSecondHalf, hh, plainOutcome]
    refine ⟨?_, ?_, ?_, ?_⟩
    · (repeat' split) <;> simp_all
    · (repeat' split) <;> simp_all
    · intro hneg
      (repeat' split) <;>
        first
          | omega
          | simp_all
    · intro hpos
      (repeat' split) <;>
        first
          | omega
          | simp_all
  · intro ctx inps hup
    have h := flowRun_prompt_bound iss inps ctx
    rw [hup] at h
    simpa using h

theorem claim_C8_witness :
    (firstTokenReqCtx.step = .sTokenRequest
      ∧ pendingPoll.drive = .done
      ∧ firstTokenReqCtx.user_prompted = false
      ∧ handle_token_response firstTokenReqCtx.used_basic_auth
          firstTokenReqCtx.authz.interval pendingPoll.status pendingPoll.body
          = .ok (none, 5)
      ∧ (flowStepIter "https://idp.example/" firstTokenReqCtx pendingPoll).prompted
          = true
      ∧ (flowStepIter "https://idp.example/" firstTokenReqCtx pendingPoll).promptPayload
          = some (some "https://idp.example/v", some "ABCD-EFGH")
      ∧ (flowStepIter "https://idp.example/" firstTokenReqCtx
            pendingPoll).ctx.user_prompted = true
      ∧ (flowStepIter "https://idp.example/" firstTokenReqCtx pendingPoll).stderrPrompt
          = true)
    ∧ flowRun "https://idp.example/" firstTokenReqCtx [fatalErrorPoll] ≤ 1 := by
  constructor
  · refine ⟨rfl, rfl, rfl, rfl, ?_⟩
    have h := (claim_C8_prompt_once "https://idp.example/").1 firstTokenReqCtx
      pendingPoll (none, 5) rfl rfl rfl rfl
    exact ⟨h.1, h.2.1, (h.2.2.2 (by decide)).1, (h.2.2.2 (by decide)).2⟩
  · exact (claim_C8_prompt_once "https://idp.example/").2 firstTokenReqCtx
      [fatalErrorPoll] rfl

theorem strncaseeq_iff (exp : List Nat) :
    ∀ ct : List Nat,
      strncaseeq exp.length ct exp = true
        ↔ (exp.length ≤ ct.length
            ∧ (ct.take exp.length).map pg_tolower = exp.map pg_tolower) := by
  induction exp with
  | nil =>
    intro ct
    simp [strncaseeq]
  | cons e es ih =>
    intro ct
    cases ct with
    | nil =>
      simp [strncaseeq]
    | cons c cs =>
      simp only [List.length_cons, strncaseeq, List.take_succ_cons, List.map_cons,
        Bool.and_eq_true, decide_eq_true_eq, List.cons.injEq, ih cs]
      constructor
      · rintro ⟨h1, h2, h3⟩
        exact ⟨by omega, h1, h3⟩
      · rintro ⟨h1, h2, h3⟩
        exact ⟨h2, by omega, h3⟩

theorem scanParams_iff :
    ∀ l : List Nat,
      scanParams l = true
        ↔ ∃ ws tail, l = ws ++ 59 :: tail ∧ ∀ c ∈ ws, c = 32 ∨ c = 9 := by
  intro l
  induction l with
  | nil =>
    simp only [scanParams, Bool.false_eq_true, false_iff]
    rintro ⟨ws, tail, heq, _⟩
    cases ws <;> simp at heq
  | cons a l ih =>
    by_cases h59 : a = 59
    · subst h59
      constructor
      · intro _
        exact ⟨[], l, rfl, by simp⟩
      · intro _
        simp [scanParams]
    · by_cases hws : a = 32 ∨ a = 9
      · rw [show scanParams (a :: l) = scanParams l by
          simp only [scanParams, if_neg h59, if_pos hws]]
        rw [ih]
        constructor
        · rintro ⟨ws, tail, rfl, hall⟩
          refine ⟨a :: ws, tail, rfl, ?_⟩
          intro c hc
          rcases List.mem_cons.mp hc with rfl | hc2
          · exact hws
          · exact hall c hc2
        · rintro ⟨ws, tail, heq, hall⟩
          cases ws with
          | nil =>
            simp only [List.nil_append, List.cons.injEq] at heq
            exact absurd heq.1 h59
          | cons w ws2 =>
            simp only [List.cons_append, List.cons.injEq] at heq
            obtain ⟨rfl, hl⟩ := heq
            exact ⟨ws2, tail, hl, fun c hc => hall c (List.mem_cons_of_mem _ hc)⟩
      · rw [show scanParams (a :: l) = false by
          simp only [scanParams, if_neg h59, if_neg hws]]
        simp only [Bool.false_eq_true, false_iff]
        rintro ⟨ws, tail, heq, hall⟩
        cases ws with
        | nil =>
          simp only [List.nil_append, List.cons.injEq] at heq
          exact absurd heq.1 h59
        | cons w ws2 =>
          simp only [List.cons_append, List.cons.injEq] at heq
          exact absurd (heq.1 ▸ hall w (List.mem_cons_self w ws2)) hws

/-- C10: `check_content_type` distinguishes a missing header with its own
error; it accepts a value exactly when the value starts with the expected
media type compared ASCII case-insensitively (so `Application/JSON` passes)
and the matched prefix is followed by end-of-string or by optional
spaces/horizontal tabs and a `;`; longer media types such as
`application/jsonx` are rejected with the quoted-value error. -/
theorem claim_C10_content_type :
    (check_content_type none applicationJson
        = .error "no content type was provided")
    ∧ (∀ ct : List Nat,
        check_content_type (some ct) applicationJson = .ok ()
          ↔ acceptableContentType applicationJson ct)
    ∧ check_content_type (some (strBytes "Application/JSON")) applicationJson = .ok ()
    ∧ check_content_type (some (strBytes "application/json ; charset=utf-8"))
        applicationJson = .ok ()
    ∧ check_content_type (some (strBytes "application/jsonx")) applicationJson
        = .error "unexpected content type: \"application/jsonx\"" := by
  refine ⟨rfl, ?_, rfl, rfl, rfl⟩
  intro ct
  have hcc : check_content_type (some ct) applicationJson
      = (if strncaseeq applicationJson.length ct applicationJson then
           if ct.drop applicationJson.length = [] then .ok ()
           else if scanParams (ct.drop applicationJson.length) then .ok ()
           else .error ("unexpected content type: \"" ++ bytesToStr ct ++ "\"")
         else .error ("unexpected content type: \"" ++ bytesToStr ct ++ "\"")) := rfl
  constructor
  · intro h
    rw [hcc] at h
    split_ifs at h with h1 h2 h3
    · obtain ⟨hlen, hmap⟩ := (strncaseeq_iff applicationJson ct).mp h1
      exact ⟨hlen, hmap, Or.inl h2⟩
    · obtain ⟨hlen, hmap⟩ := (strncaseeq_iff applicationJson ct).mp h1
      exact ⟨hlen, hmap, Or.inr ((scanParams_iff _).mp h3)⟩
  · rintro ⟨hlen, hmap, hrest⟩
    have h1 : strncaseeq applicationJson.length ct applicationJson = true :=
      (strncaseeq_iff applicationJson ct).mpr ⟨hlen, hmap⟩
    rw [hcc, if_pos h1]
    rcases hrest with he | hex
    · rw [if_pos he]
    · have hsc : scanParams (ct.drop applicationJson.length) = true :=
        (scanParams_iff _).mpr hex
      by_cases he : ct.drop applicationJson.length = []
      · rw [if_pos he]
      · rw [if_neg he, if_pos hsc]

set_option maxRecDepth 8192 in
theorem unreserved_facts :
    ∀ b < 256, unreservedByte b = true → b ≠ 37 ∧ b ≠ 32 ∧ b ≠ 43 := by
  decide

set_option maxRecDepth 8192 in
theorem escape_hex_facts :
    ∀ b < 256,
      isHexUpper (hexDigitUpper (b / 16)) = true
      ∧ isHexUpper (hexDigitUpper (b % 16)) = true
      ∧ hexDigitUpper (b / 16) ≠ 37
      ∧ hexDigitUpper (b % 16) ≠ 37 := by
  decide

set_option maxRecDepth 8192 in
theorem escape_space_unique :
    ∀ b < 256, b ≠ 32 →
      ¬(hexDigitUpper (b / 16) = 50 ∧ hexDigitUpper (b % 16) = 48) := by
  decide

set_option maxRecDepth 8192 in
theorem hex_roundtrip :
    ∀ b < 256, hexVal (hexDigitUpper (b / 16)) * 16 + hexVal (hexDigitUpper (b % 16)) = b := by
  decide

theorem replacePlus_cons_ne (b : Nat) (hb : b ≠ 37) (t : List Nat) :
    replacePlus (b :: t) = b :: replacePlus t := by
  match t with
  | [] => rfl
  | [c] => rfl
  | c :: d :: rest =>
    simp only [replacePlus]
    rw [if_neg (by intro h; exact hb h.1)]

theorem replacePlus_esc (h l : Nat) (hh : h ≠ 37) (hl : l ≠ 37)
    (hno : ¬(h = 50 ∧ l = 48)) (t : List Nat) :
    replacePlus (37 :: h :: l :: t) = 37 :: h :: l :: replacePlus t := by
  simp only [replacePlus]
  rw [if_neg (by intro hx; exact hno ⟨hx.2.1, hx.2.2⟩)]
  rw [replacePlus_cons_ne h hh (l :: t), replacePlus_cons_ne l hl t]

theorem urlencode_eq_urltoks (s : List Nat) (hs : ∀ b ∈ s, b < 256) :
    urlencode s = urltoks s := by
  induction s with
  | nil => rfl
  | cons b rest ih =>
    have hb : b < 256 := hs b (List.mem_cons_self b rest)
    have ihr : urlencode rest = urltoks rest :=
      ih (fun c hc => hs c (List.mem_cons_of_mem b hc))
    show replacePlus (escapeByte b ++ curlEscape rest) = urltok b ++ urltoks rest
    by_cases hur : unreservedByte b = true
    · obtain ⟨h37, h32, _⟩ := unreserved_facts b hb hur
      simp only [escapeByte, if_pos hur, urltok, if_neg h32, List.cons_append,
        List.nil_append]
      rw [replacePlus_cons_ne b h37]
      rw [← ihr]
      rfl
    · have hur2 : unreservedByte b = false := by
        revert hur
        cases unreservedByte b <;> simp
      by_cases h32 : b = 32
      · subst h32
        simp only [escapeByte, hur2, Bool.false_eq_true, if_false, urltok, if_pos rfl]
        show replacePlus (37 :: 50 :: 48 :: curlEscape rest) = 43 :: urltoks rest
        simp only [replacePlus, if_pos (show (37:Nat) = 37 ∧ (50:Nat) = 50 ∧ (48:Nat) = 48 by decide)]
        rw [← ihr]
        rfl
      · obtain ⟨hx1, hx2, hx3, hx4⟩ := escape_hex_facts b hb
        have hno := escape_space_unique b hb h32
        simp only [escapeByte, hur2, Bool.false_eq_true, if_false, urltok,
          if_neg h32, List.cons_append, List.nil_append]
        rw [replacePlus_esc _ _ hx3 hx4 hno]
        rw [← ihr]
        rfl

theorem formEncoded_urltoks (s : List Nat) (hs : ∀ b ∈ s, b < 256) :
    FormEncoded (urltoks s) := by
  induction s with
  | nil => exact .nil
  | cons b rest ih =>
    have hb : b < 256 := hs b (List.mem_cons_self b rest)
    have ihr := ih (fun c hc => hs c (List.mem_cons_of_mem b hc))
    show FormEncoded (urltok b ++ urltoks rest)
    by_cases h32 : b = 32
    · subst h32
      simp only [urltok, if_pos rfl, List.cons_append, List.nil_append]
      exact .plus ihr
    · simp only [urltok, if_neg h32, escapeByte]
      by_cases hur : unreservedByte b = true
      · simp only [if_pos hur, List.cons_append, List.nil_append]
        exact .unres hur ihr
      · have hur2 : unreservedByte b = false := by
          revert hur
          cases unreservedByte b <;> simp
        simp only [hur2, Bool.false_eq_true, if_false, List.cons_append,
          List.nil_append]
        obtain ⟨hx1, hx2, _, _⟩ := escape_hex_facts b hb
        exact .esc hx1 hx2 ihr

theorem startsP20_false_of_ne (a : Nat) (ha : a ≠ 37) (l : List Nat) :
    startsP20 (a :: l) = false := by
  match l with
  | [] => rfl
  | [c] => rfl
  | c :: d :: rest =>
    simp only [startsP20, decide_eq_false_iff_not]
    intro hx
    exact ha hx.1

theorem hasP20_cons (a : Nat) (l : List Nat) :
    hasP20 (a :: l) = (startsP20 (a :: l) || hasP20 l) := rfl

theorem hasP20_append_tok (b : Nat) (hb : b < 256) (t : List Nat) :
    hasP20 (urltok b ++ t) = hasP20 t := by
  by_cases h32 : b = 32
  · subst h32
    rw [show urltok 32 = [43] from rfl]
    simp only [List.cons_append, List.nil_append, hasP20_cons]
    rw [startsP20_false_of_ne 43 (by decide) t]
    simp
  · simp only [urltok, if_neg h32, escapeByte]
    by_cases hur : unreservedByte b = true
    · obtain ⟨h37, _, _⟩ := unreserved_facts b hb hur
      simp only [if_pos hur, List.cons_append, List.nil_append, hasP20_cons]
      rw [startsP20_false_of_ne b h37 t]
      simp
    · have hur2 : unreservedByte b = false := by
        revert hur
        cases unreservedByte b <;> simp
      obtain ⟨_, _, hx3, hx4⟩ := escape_hex_facts b hb
      have hno := escape_space_unique b hb h32
      simp only [hur2, Bool.false_eq_true, if_false, List.cons_append,
        List.nil_append, hasP20_cons]
      rw [startsP20_false_of_ne _ hx3 (hexDigitUpper (b % 16) :: t),
        startsP20_false_of_ne _ hx4 t]
      have hfirst : startsP20 (37 :: hexDigitUpper (b / 16) :: hexDigitUpper (b % 16) :: t)
          = false := by
        simp only [startsP20, decide_eq_false_iff_not]
        intro hx
        exact hno ⟨hx.2.1, hx.2.2⟩
      rw [hfirst]
      simp

theorem hasP20_urltoks (s : List Nat) (hs : ∀ b ∈ s, b < 256) :
    hasP20 (urltoks s) = false := by
  induction s with
  | nil => rfl
  | cons b rest ih =>
    have hb : b < 256 := hs b (List.mem_cons_self b rest)
    have ihr := ih (fun c hc => hs c (List.mem_cons_of_mem b hc))
    show hasP20 (urltok b ++ urltoks rest) = false
    rw [hasP20_append_tok b hb, ihr]

theorem hasP20_iff_occurrence (l : List Nat) :
    hasP20 l = true ↔ List.IsInfix [37, 50, 48] l := by
  induction l with
  | nil =>
    simp only [hasP20, Bool.false_eq_true, false_iff]
    rintro ⟨s, t, hst⟩
    have hlen := congrArg List.length hst
    simp only [List.length_append, List.length_cons, List.length_nil] at hlen
    omega
  | cons a l ih =>
    rw [hasP20_cons, Bool.or_eq_true, ih]
    constructor
    · rintro (hst | hinf)
      · match l, hst with
        | [], hst => exact absurd hst (by simp [startsP20])
        | [c], hst => exact absurd hst (by simp [startsP20])
        | c :: d :: rest, hst =>
          simp only [startsP20, decide_eq_true_eq] at hst
          obtain ⟨rfl, rfl, rfl⟩ := hst
          exact ⟨[], rest, rfl⟩
      · obtain ⟨s, t, hst⟩ := hinf
        exact ⟨a :: s, t, by simp [hst]⟩
    · rintro ⟨s, t, hst⟩
      cases s with
      | nil =>
        simp only [List.nil_append, List.cons_append, List.cons.injEq] at hst
        obtain ⟨rfl, rfl⟩ := hst
        left
        simp [startsP20]
      | cons x s2 =>
        simp only [List.cons_append, List.cons.injEq] at hst
        right
        exact ⟨s2, t, hst.2⟩

theorem formDecode_esc (h l : Nat) (t : List Nat) :
    formDecode (37 :: h :: l :: t) = (hexVal h * 16 + hexVal l) :: formDecode t := by
  simp only [formDecode]
  rw [if_neg (by decide)]
  simp

theorem formDecode_43 (t : List Nat) :
    formDecode (43 :: t) = 32 :: formDecode t := by
  match t with
  | [] => rfl
  | [x] => rfl
  | x :: y :: r => rfl

theorem formDecode_plain (b : Nat) (h43 : b ≠ 43) (h37 : b ≠ 37) (t : List Nat) :
    formDecode (b :: t) = b :: formDecode t := by
  match t with
  | [] =>
    simp only [formDecode]
    rw [if_neg h43]
  | [x] =>
    simp only [formDecode]
    rw [if_neg h43]
  | x :: y :: r =>
    simp only [formDecode]
    rw [if_neg h43, if_neg h37]

theorem formDecode_urltoks (s : List Nat) (hs : ∀ b ∈ s, b < 256) :
    formDecode (urltoks s) = s := by
  induction s with
  | nil => rfl
  | cons b rest ih =>
    have hb : b < 256 := hs b (List.mem_cons_self b rest)
    have ihr := ih (fun c hc => hs c (List.mem_cons_of_mem b hc))
    show formDecode (urltok b ++ urltoks rest) = b :: rest
    by_cases h32 : b = 32
    · subst h32
      rw [show urltok 32 = [43] from rfl]
      simp only [List.cons_append, List.nil_append]
      rw [formDecode_43, ihr]
    · simp only [urltok, if_neg h32, escapeByte]
      by_cases hur : unreservedByte b = true
      · obtain ⟨h37, _, h43⟩ := unreserved_facts b hb hur
        simp only [if_pos hur, List.cons_append, List.nil_append]
        rw [formDecode_plain b h43 h37, ihr]
      · have hur2 : unreservedByte b = false := by
          revert hur
          cases unreservedByte b <;> simp
        simp only [hur2, Bool.false_eq_true, if_false, List.cons_append,
          List.nil_append]
        rw [formDecode_esc, ihr, hex_roundtrip b hb]

/-- C9: for every byte string, `urlencode` emits only unreserved bytes,
`%HH` escapes, and `+` signs; the three-byte sequence `%20` never occurs in
the output (spaces become `+`); and decoding the output under
`application/x-www-form-urlencoded` rules recovers the input exactly. -/
theorem claim_C9_urlencode_properties (s : List Nat) (hs : ∀ b ∈ s, b < 256) :
    FormEncoded (urlencode s)
    ∧ ¬ List.IsInfix [37, 50, 48] (urlencode s)
    ∧ formDecode (urlencode s) = s := by
  rw [urlencode_eq_urltoks s hs]
  refine ⟨formEncoded_urltoks s hs, ?_, formDecode_urltoks s hs⟩
  intro hinf
  have htrue := (hasP20_iff_occurrence (urltoks s)).mpr hinf
  rw [hasP20_urltoks s hs] at htrue
  cases htrue

theorem claim_C9_witness :
    (∀ b ∈ [97, 32, 98, 37, 126], b < 256)
    ∧ (FormEncoded (urlencode [97, 32, 98, 37, 126])
      ∧ ¬ List.IsInfix [37, 50, 48] (urlencode [97, 32, 98, 37, 126])
      ∧ formDecode (urlencode [97, 32, 98, 37, 126]) = [97, 32, 98, 37, 126]) :=
  ⟨by decide, claim_C9_urlencode_properties [97, 32, 98, 37, 126] (by decide)⟩
